import Mathlib

/-!
Verification development for the WhatsApp webhook bot (`app.py`).

The repository is a single Flask application.  Its handlers and helpers are
embedded shallowly below:

* Python strings are Lean `String`s (lists of characters via `String.data`);
* values that may be Python `None` are `Option`s;
* every external HTTP interaction (the Hugging Face inference call, the
  WhatsApp send-message POST) is modelled by an explicit outcome parameter
  describing what the remote service did;
* the Google Sheet is a list of rows, each row a list of cell strings;
* code paths that raise exceptions are modelled explicitly (`Option`,
  explicit error results), matching the `try`/`except` structure of the
  source.
-/

set_option autoImplicit false

namespace WhatsAppBot

/-! ### Generic string helpers (embeddings of Python string primitives) -/

/-- `startsWithL pat s`: the character list `s` starts with `pat`. -/
def startsWithL : List Char → List Char → Bool
  | [], _ => true
  | _ :: _, [] => false
  | p :: ps, c :: cs => p == c && startsWithL ps cs

/-- `hasSubL pat s`: `pat` occurs as a contiguous sublist of `s`
(embedding of Python's `pat in s` on strings). -/
def hasSubL (pat : List Char) : List Char → Bool
  | [] => startsWithL pat []
  | c :: cs => startsWithL pat (c :: cs) || hasSubL pat cs

/-- Embedding of Python's `pat in s` substring test. -/
def hasSub (pat s : String) : Bool := hasSubL pat.data s.data

/-- Characters Python's `str.strip()` removes (ASCII whitespace). -/
def isPySpace (c : Char) : Bool :=
  c == ' ' || c == '\t' || c == '\n' || c == '\r' || c == '\x0b' || c == '\x0c'

/-- Strip `isPySpace` characters from both ends of a character list. -/
def trimL (l : List Char) : List Char :=
  ((l.dropWhile isPySpace).reverse.dropWhile isPySpace).reverse

/-- Embedding of Python's `str.strip()`. -/
def pyStrip (s : String) : String := ⟨trimL s.data⟩

/-- Replace every (non-overlapping, left-to-right) occurrence of `pat` by
`rep`; the replacement text is not rescanned.  Embedding of Python's
`str.replace` (used with a non-empty pattern in the source). -/
def replaceAllL (pat rep : List Char) : List Char → List Char
  | [] => []
  | c :: cs =>
    if startsWithL pat (c :: cs) && !pat.isEmpty then
      rep ++ replaceAllL pat rep (cs.drop (pat.length - 1))
    else
      c :: replaceAllL pat rep cs
termination_by l => l.length
decreasing_by
  · simp only [List.length_cons, List.length_drop]
    exact Nat.lt_succ_of_le (Nat.sub_le _ _)
  · simp

/-- Embedding of Python's `str.replace`. -/
def pyReplace (s pat rep : String) : String := ⟨replaceAllL pat.data rep.data s.data⟩

/-- Embedding of Python's string slicing `s[:n]`. -/
def strTake (s : String) (n : Nat) : String := ⟨s.data.take n⟩

/-- ASCII lowercase of one character. -/
def lowerChar (c : Char) : Char :=
  if c.toNat ≥ 65 && c.toNat ≤ 90 then Char.ofNat (c.toNat + 32) else c

/-- Embedding of Python's `str.lower()` (ASCII scope). -/
def pyLower (s : String) : String := ⟨s.data.map lowerChar⟩

/-- Embedding of Python's rendering of a possibly-`None` string value at a
format/f-string use site (`None` prints as `"None"`). -/
def pyRender : Option String → String
  | none => "None"
  | some s => s

/-- Parse a string the way Python's `int()` does on the sheet values used
here: optional surrounding whitespace, an optional sign, then a non-empty
run of decimal digits; anything else raises (modelled as `none`). -/
def digitsToNat (l : List Char) : Option Nat :=
  if !l.isEmpty && l.all Char.isDigit then
    some (l.foldl (fun a c => a * 10 + (c.toNat - '0'.toNat)) 0)
  else
    none

/-- Embedding of Python's `int(s)` on decimal strings. -/
def pyInt (s : String) : Option Int :=
  match trimL s.data with
  | '+' :: ds => (digitsToNat ds).map Int.ofNat
  | '-' :: ds => (digitsToNat ds).map fun n => -(n : Int)
  | ds => (digitsToNat ds).map Int.ofNat

/-! ### Configuration

`BUSINESS_NAME` and `SUPPORT_EMAIL` come from the environment
(`os.getenv`, app.py lines 22-23); they are threaded through as values of
this structure.  `VERIFY_TOKEN` is passed separately to `verify_webhook`. -/

structure Config where
  business : String
  supportEmail : String
deriving Repr, DecidableEq

/-! ### `verify_webhook` (app.py lines 200-215)

GET `/webhook`: reads the `hub.mode`, `hub.verify_token` and
`hub.challenge` query parameters (each `Option String`, since
`request.args.get` yields `None` for a missing parameter) and compares
against the configured token.  Nothing in the body can raise, so the
`except` arm (lines 213-215) is dead and is not modelled. -/

def verify_webhook (verifyToken : String) (mode token challenge : Option String) :
    Option String × Nat :=
  if mode == some "subscribe" && token == some verifyToken then
    (challenge, 200)
  else
    (some "Forbidden", 403)

/-! ### `AIResponseGenerator` (app.py lines 112-167)

The Hugging Face call (`requests.post` + `response.json()`) is modelled by
an `HFOutcome` describing what the remote service did:

* `raised` — the POST or the JSON decoding raised an exception;
* `ok status res` — an HTTP response with that status code, whose decoded
  JSON body is summarised by `HFJson`:
  * `notListOrEmpty` — not a list, or an empty list (the
    `isinstance(result, list) and len(result) > 0` test fails);
  * `badFirst` — a non-empty list whose first element is not a dict with
    a string `'generated_text'` (so `.get`/`.replace` raises);
  * `genText g` — a usable `'generated_text'` string `g` (the empty
    string when the key is absent). -/

inductive HFJson where
  | notListOrEmpty
  | badFirst
  | genText (g : String)
deriving Repr, DecidableEq

inductive HFOutcome where
  | raised
  | ok (status : Nat) (res : HFJson)
deriving Repr, DecidableEq

/-- Pattern string `"{name}"` (placeholder of `str.format`). -/
def namePat : String := "\x7bname\x7d"

/-- Pattern string `"{business}"` (placeholder of `str.format`). -/
def bizPat : String := "\x7bbusiness\x7d"

/-- Substitute the `name`/`business` fields in a template in one
left-to-right scan; embedding of
`template.format(name=..., business=...)` for the placeholder fields
occurring in the predefined-response templates. -/
def formatNB (name business : List Char) : List Char → List Char
  | [] => []
  | c :: cs =>
    if startsWithL namePat.data (c :: cs) then
      name ++ formatNB name business (cs.drop 5)
    else if startsWithL bizPat.data (c :: cs) then
      business ++ formatNB name business (cs.drop 9)
    else
      c :: formatNB name business cs
termination_by l => l.length
decreasing_by
  · simp only [List.length_cons, List.length_drop]
    omega
  · simp only [List.length_cons, List.length_drop]
    omega
  · simp

/-- Embedding of `template.format(name=..., business=...)`. -/
def pyFormat (template name business : String) : String :=
  ⟨formatNB name.data business.data template.data⟩

/-- The predefined-response table (app.py lines 154-162), in source
order.  The `'support'` entry interpolates `SUPPORT_EMAIL` via an
f-string when the dict is built. -/
def responses (supportEmail : String) : List (String × String) :=
  [("hello", "Hello \x7bname\x7d! Welcome to \x7bbusiness\x7d. How can I help you today?"),
   ("hi", "Hi \x7bname\x7d! Thanks for contacting \x7bbusiness\x7d. What can I assist you with?"),
   ("help", "I\x27m here to help! Please tell me what you need assistance with."),
   ("hours", "Our business hours are 9 AM to 6 PM, Monday to Friday."),
   ("price", "For pricing information, please let me know which product you\x27re interested in."),
   ("order", "I\x27d be happy to help with your order. Could you provide your order number?"),
   ("support", "You\x27re talking to our support! For complex issues, email " ++ supportEmail ++ ".")]

/-- The seven predefined keywords, in source order. -/
def keywords : List String :=
  ["hello", "hi", "help", "hours", "price", "order", "support"]

/-- `get_predefined_response` (app.py lines 153-167): return the template
of the first table entry whose keyword occurs in the message, else
`None`. -/
def get_predefined_response (supportEmail message : String) : Option String :=
  ((responses supportEmail).find? fun p => hasSub p.1 message).map Prod.snd

/-- The prompt sent to the hosted model (app.py line 125). -/
def promptFor (name message : String) : String :=
  "Customer " ++ name ++ " says: " ++ message ++ ". Reply as helpful customer support:"

/-- Fallback greeting of the non-exception path (app.py line 147). -/
def helloGreeting (name business : String) : String :=
  "Hello " ++ name ++ "! Thank you for contacting " ++ business ++ ". How can I help you today?"

/-- Fallback greeting of the exception path (app.py line 151). -/
def hiGreeting (name : String) : String :=
  "Hi " ++ name ++ "! Thanks for your message. Our team will get back to you soon!"

/-- `get_ai_response` (app.py lines 117-151).  Returns the reply string
together with a flag recording whether the hosted-model POST was
executed (`false` exactly when a predefined response short-circuited). -/
def get_ai_response (cfg : Config) (hf : HFOutcome) (message name : String) :
    String × Bool :=
  match get_predefined_response cfg.supportEmail (pyLower message) with
  | some t => (pyFormat t name cfg.business, false)
  | none =>
    let prompt := promptFor name message
    match hf with
    | .raised => (hiGreeting name, true)
    | .ok status res =>
      if status == 200 then
        match res with
        | .badFirst => (hiGreeting name, true)
        | .genText g =>
          let aiResp := pyStrip (pyReplace g prompt "")
          if aiResp ≠ "" ∧ 10 < aiResp.length then
            (strTake aiResp 400, true)
          else
            (helloGreeting name cfg.business, true)
        | .notListOrEmpty => (helloGreeting name cfg.business, true)
      else
        (helloGreeting name cfg.business, true)

/-- The reply the 200-path extracts from a decoded body, if usable
(mirrors app.py lines 140-145). -/
def hfReplyExtract (res : HFJson) (prompt : String) : Option String :=
  match res with
  | .genText g =>
    let aiResp := pyStrip (pyReplace g prompt "")
    if aiResp ≠ "" ∧ 10 < aiResp.length then some (strTake aiResp 400) else none
  | _ => none

/-- The hosted call "fails in any way": the POST raised, the status was
not 200, or the decoded output was unusable. -/
def hfFailed (hf : HFOutcome) (prompt : String) : Prop :=
  hf = .raised ∨
    ∃ s r, hf = .ok s r ∧ (s ≠ 200 ∨ hfReplyExtract r prompt = none)

/-! ### `send_whatsapp_message` (app.py lines 178-198)

The POST to the Graph API is modelled by a `PostOutcome`; the function
returns the boolean result together with the list of POST requests it
issued (always exactly one). -/

structure SendReq where
  url : String
  toNumber : Option String
  body : String
deriving Repr, DecidableEq

inductive PostOutcome where
  | raised
  | ok (status : Nat)
deriving Repr, DecidableEq

/-- The Graph API send-message endpoint for a phone-number id. -/
def sendUrl (phoneNumberId : String) : String :=
  "https://graph.facebook.com/v18.0/" ++ phoneNumberId ++ "/messages"

/-- `send_whatsapp_message` (app.py lines 178-198): one POST; `True` iff
the response status is 200; `False` when the call raised. -/
def send_whatsapp_message (outcome : PostOutcome) (phoneNumberId : String)
    (toNumber : Option String) (message : String) : Bool × List SendReq :=
  let ok : Bool :=
    match outcome with
    | .raised => false
    | .ok s => s == 200
  (ok, [{ url := sendUrl phoneNumberId, toNumber := toNumber, body := message }])

/-- A worksheet: a list of rows, each a list of cell strings. -/
abbrev Sheet := List (List String)

/-- A cell of the row equals the phone number (what `findall` matches). -/
def rowMatches (phone : String) (row : List String) : Bool :=
  row.any (· == phone)

/-- The seven cell values written for a customer interaction. -/
def storeRow (name phone email question date time count : String) : List String :=
  [name, phone, email, question, date, time, count]

/-- Column G of a row, with `or '0'` applied (`None`/empty becomes
`'0'`), app.py line 87. -/
def cellOrZero (row : List String) : String :=
  let v := row.getD 6 ""
  if v == "" then "0" else v

/-- `store_customer_data` (app.py lines 74-110), returning the Python
result together with the new sheet state. -/
def store_customer_data (sheet : Option Sheet)
    (name phone email question date time : String) : Bool × Option Sheet :=
  match sheet with
  | none => (false, none)
  | some s =>
    match s.findIdx? (rowMatches phone) with
    | some i =>
      let row := s.getD i []
      match pyInt (cellOrZero row) with
      | some n =>
        (true, some (s.set i
          (storeRow name phone email question date time (toString (n + 1)) ++ row.drop 7)))
      | none =>
        (true, some (s ++ [storeRow name phone email question date time "1"]))
    | none => (true, some (s ++ [storeRow name phone email question date time "1"]))

/-- Character class `[A-Za-z0-9._%+-]` (local part). -/
def isLocalChar (c : Char) : Bool :=
  c.isAlpha || c.isDigit || c == '.' || c == '_' || c == '%' || c == '+' || c == '-'

/-- Character class `[A-Za-z0-9.-]` (domain). -/
def isDomChar (c : Char) : Bool :=
  c.isAlpha || c.isDigit || c == '.' || c == '-'

/-- Character class `[A-Z|a-z]`: the TLD class of the source pattern,
which contains the literal `'|'`. -/
def isTldChar (c : Char) : Bool := c.isAlpha || c == '|'

/-- Word character for `\b` (ASCII scope of `\w`). -/
def isWordChar (c : Char) : Bool := c.isAlphanum || c == '_'

/-- Word boundary between two adjacent positions, given the characters on
each side (`none` beyond the ends of the text). -/
def boundary (a b : Option Char) : Bool :=
  (match a with | none => false | some c => isWordChar c) !=
    (match b with | none => false | some c => isWordChar c)

/-- Largest `k ≤ n` with `P k`, scanning downwards. -/
def findDown (P : Nat → Bool) : Nat → Option Nat
  | 0 => if P 0 then some 0 else none
  | n + 1 => if P (n + 1) then some (n + 1) else findDown P n

/-- `tldOk trun rem n`: taking `n` characters of the maximal TLD-class
run `trun` (a prefix of `rem`) is legal: at least two characters, and a
word boundary after them. -/
def tldOk (trun rem : List Char) (n : Nat) : Bool :=
  decide (2 ≤ n) && decide (n ≤ trun.length) &&
    boundary (trun.take n).getLast? ((rem.drop n).head?)

/-- Greedy choice of the TLD length. -/
def tldPick (rem : List Char) : Option Nat :=
  let trun := rem.takeWhile isTldChar
  findDown (tldOk trun rem) trun.length

/-- `dotOk drun after2 k`: position `k` of the maximal domain-class run
can serve as the literal `'.'` of the pattern (a non-empty domain part
before it, a viable TLD after it). -/
def dotOk (drun after2 : List Char) (k : Nat) : Bool :=
  decide (1 ≤ k) && (drun[k]? == some '.') &&
    (tldPick (drun.drop (k + 1) ++ after2)).isSome

/-- Greedy split of the text after `'@'` into domain part, dot, and TLD
length (backtracking from the longest domain part, like the engine). -/
def domSplit (rest2 : List Char) : Option (Nat × Nat) :=
  let drun := rest2.takeWhile isDomChar
  let after2 := rest2.dropWhile isDomChar
  match findDown (dotOk drun after2) drun.length with
  | some k =>
    match tldPick (drun.drop (k + 1) ++ after2) with
    | some n => some (k, n)
    | none => none
  | none => none

/-- Attempt the email pattern at the current position; `prev` is the
character just before it.  Returns the matched characters. -/
def matchAt (prev : Option Char) (s : List Char) : Option (List Char) :=
  match s with
  | [] => none
  | c :: cs =>
    if isLocalChar c && boundary prev (some c) then
      match (c :: cs).dropWhile isLocalChar with
      | '@' :: rest2 =>
        match domSplit rest2 with
        | some (k, n) =>
          some ((c :: cs).takeWhile isLocalChar ++ '@' ::
            ((rest2.takeWhile isDomChar).take k ++ '.' ::
              (((rest2.takeWhile isDomChar).drop (k + 1) ++
                rest2.dropWhile isDomChar).takeWhile isTldChar).take n))
        | none => none
      | _ => none
    else none

/-- Scan positions left to right for the first match (`re.search`). -/
def emailSearch (prev : Option Char) : List Char → Option (List Char)
  | [] => none
  | c :: cs =>
    match matchAt prev (c :: cs) with
    | some m => some m
    | none => emailSearch (some c) cs

/-- `extract_email` (app.py lines 173-176). -/
def extract_email (text : String) : String :=
  match emailSearch none text.data with
  | some m => ⟨m⟩
  | none => "Not provided"

/-! Declarative characterisation of a pattern match (used to state the
theorems about `extract_email`). -/

/-- `m` decomposes as `local ++ '@' ++ domain ++ '.' ++ tld` with the
character classes of the source pattern. -/
def isEmailShape (m : List Char) : Prop :=
  ∃ l d t, m = l ++ '@' :: (d ++ '.' :: t) ∧
    l ≠ [] ∧ (∀ x ∈ l, isLocalChar x = true) ∧
    d ≠ [] ∧ (∀ x ∈ d, isDomChar x = true) ∧
    2 ≤ t.length ∧ (∀ x ∈ t, isTldChar x = true)

/-- The pattern matches the prefix `m` at the current position: `m` has
email shape, is a prefix of the remaining text `s`, and both ends sit on
word boundaries (`prev` is the character before the position). -/
def matchPre (prev : Option Char) (s m : List Char) : Prop :=
  isEmailShape m ∧ s.take m.length = m ∧
    boundary prev m.head? = true ∧
    boundary m.getLast? ((s.drop m.length).head?) = true

/-- The character before position `i`, when the text is `s` and the
character before position 0 is `prev`. -/
def prevAt (prev : Option Char) (s : List Char) (i : Nat) : Option Char :=
  match i with
  | 0 => prev
  | j + 1 => (s.drop j).head?

/-- The code's email pattern matches the text at start position `i`. -/
def emailMatchAt (text : String) (i : Nat) (m : List Char) : Prop :=
  matchPre (prevAt none text.data i) (text.data.drop i) m

/-- Letters-only TLD class, as the claim describes the pattern. -/
def isSpecTld (c : Char) : Bool := c.isAlpha

/-- Modelled from the claim's words: `m` decomposes as
`local ++ '@' ++ domain ++ '.' ++ tld` with a top-level domain of at
least two letters. -/
def specShape (m : List Char) : Bool :=
  let l := m.takeWhile isLocalChar
  match m.drop l.length with
  | '@' :: rest =>
    decide (l ≠ []) &&
      (List.range rest.length).any fun k =>
        decide (1 ≤ k) && (rest[k]? == some '.') &&
          (rest.take k).all isDomChar &&
          (decide (2 ≤ (rest.drop (k + 1)).length) &&
            (rest.drop (k + 1)).all isSpecTld)
  | _ => false

/-- Modelled from the claim's words: the text contains a word-boundary
delimited substring matching the claim's email pattern (letters-only
TLD of length at least two). -/
def specHasEmail (text : String) : Bool :=
  (List.range (text.data.length + 1)).any fun i =>
    (List.range (text.data.length - i + 1)).any fun len =>
      decide (((text.data.drop i).take len).length = len) &&
        specShape ((text.data.drop i).take len) &&
        boundary (prevAt none text.data i) ((text.data.drop i).take len).head? &&
        boundary ((text.data.drop i).take len).getLast?
          (((text.data.drop i).drop len).head?)

/-! ### `handle_message` (app.py lines 217-262)

POST `/webhook`.  The JSON body is modelled structurally: `Payload`
mirrors the dict shape the handler reads, with `Option` for possibly
missing keys and lists for the JSON arrays.  `request.get_json()` is an
`Except String (Option Payload)`: `.error e` when decoding raised, `.ok
none` for a JSON `null` body (on which `data.get` raises
`AttributeError`), `.ok (some p)` otherwise.  The handler returns the
Flask response — `none` when the function falls off the end without a
`return` — together with the list of side effects it performed, in
order. -/

structure TextObj where
  body : Option String
deriving Repr, DecidableEq

structure MessageData where
  msgFrom : Option String
  text : Option TextObj
  type : Option String
deriving Repr, DecidableEq

structure Profile where
  name : Option String
deriving Repr, DecidableEq

structure Contact where
  profile : Option Profile
deriving Repr, DecidableEq

structure Metadata where
  phone_number_id : Option String
deriving Repr, DecidableEq

structure ValueObj where
  messages : Option (List MessageData)
  contacts : Option (List Contact)
  metadata : Option Metadata
deriving Repr, DecidableEq

structure Change where
  value : Option ValueObj
deriving Repr, DecidableEq

structure Entry where
  changes : Option (List Change)
deriving Repr, DecidableEq

structure Payload where
  object : Option String
  entry : Option (List Entry)
deriving Repr, DecidableEq

/-- Observable side effects of one POST handling, in order. -/
inductive Effect where
  | store (name phone email question : String)
  | hfCall
  | send (req : SendReq)
deriving Repr, DecidableEq

/-- JSON response bodies produced by the handler. -/
inductive RespBody where
  | errorJson (msg : String)
  | statusJson (s : String)
deriving Repr, DecidableEq

/-- `str(e)` for the `AttributeError` raised by `None.get(...)`. -/
def noneTypeGetMsg : String := "\x27NoneType\x27 object has no attribute \x27get\x27"

/-- `str(e)` for the `KeyError` on `value['metadata']`. -/
def keyErrorMetadata : String := "\x27metadata\x27"

/-- `str(e)` for the `KeyError` on `metadata['phone_number_id']`. -/
def keyErrorPhoneNumberId : String := "\x27phone_number_id\x27"

/-- The truthiness condition of app.py lines 222-225 (`and`-chain over
`data.get('object')`, `data.get('entry')`, the first entry's `changes`,
and the first change's `value.get('messages')`). -/
def chainOk (data : Payload) : Bool :=
  (data.object == some "whatsapp_business_account") &&
    (match data.entry with
     | some (entry0 :: _) =>
       match entry0.changes with
       | some (change0 :: _) =>
         match change0.value with
         | some v =>
           match v.messages with
           | some (_ :: _) => true
           | _ => false
         | none => false
       | _ => false
     | _ => false)

/-- `message_data.get('text', {}).get('body', '')` (app.py line 237). -/
def pyMsgText (m : MessageData) : String :=
  match m.text with
  | some t => t.body.getD ""
  | none => ""

/-- The customer display name (app.py lines 239-242): `'Customer'` when
there are no contacts, else the first contact's profile name, defaulting
to the sender number. -/
def customerNameOf (contacts : List Contact) (fromNumber : Option String) :
    Option String :=
  match contacts with
  | [] => some "Customer"
  | c0 :: _ =>
    match (c0.profile.getD ⟨none⟩).name with
    | some n => some n
    | none => fromNumber

/-- `handle_message` (app.py lines 217-262): parse the notification, and
on a text message store the customer data, generate a reply and send it;
catch any exception into a 500 response. -/
def handle_message (cfg : Config) (sheet : Option Sheet) (date time : String)
    (body : Except String (Option Payload)) (hf : HFOutcome)
    (sendOut : PostOutcome) : Option (RespBody × Nat) × List Effect :=
  match body with
  | .error e => (some (.errorJson e, 500), [])
  | .ok none => (some (.errorJson noneTypeGetMsg, 500), [])
  | .ok (some data) =>
    if data.object == some "whatsapp_business_account" then
      match data.entry with
      | some (entry0 :: _) =>
        match entry0.changes with
        | some (change0 :: _) =>
          match change0.value with
          | some v =>
            match v.messages with
            | some (msg0 :: _) =>
              let contacts := v.contacts.getD []
              match v.metadata with
              | none => (some (.errorJson keyErrorMetadata, 500), [])
              | some md =>
                match md.phone_number_id with
                | none => (some (.errorJson keyErrorPhoneNumberId, 500), [])
                | some pid =>
                  let fromNumber := msg0.msgFrom
                  let messageText := pyMsgText msg0
                  let customerName := customerNameOf contacts fromNumber
                  if msg0.type != some "text" then
                    (some (.statusJson "ignored", 200), [])
                  else
                    let email := extract_email messageText
                    let _st := store_customer_data sheet (pyRender customerName)
                      (pyRender fromNumber) email messageText date time
                    let ai := get_ai_response cfg hf messageText (pyRender customerName)
                    let sd := send_whatsapp_message sendOut pid fromNumber ai.1
                    (some (.statusJson "success", 200),
                      Effect.store (pyRender customerName) (pyRender fromNumber)
                          email messageText ::
                        ((if ai.2 then [Effect.hfCall] else []) ++
                          sd.2.map Effect.send))
            | _ => (none, [])
          | none => (none, [])
        | _ => (none, [])
      | _ => (none, [])
    else
      (none, [])

/-- A well-formed notification payload: the envelope around a `value`
object (used to state the `handle_message` theorems). -/
def mkNotification (msgs : List MessageData) (contacts : Option (List Contact))
    (md : Option Metadata) (cr : List Change) (er : List Entry) : Payload :=
  ⟨some "whatsapp_business_account",
    some (⟨some (⟨some ⟨some msgs, contacts, md⟩⟩ :: cr)⟩ :: er)⟩

/-- Number of `store` effects in a log. -/
def countStore : List Effect → Nat
  | [] => 0
  | .store _ _ _ _ :: l => countStore l + 1
  | _ :: l => countStore l

/-- Number of `hfCall` effects in a log. -/
def countHf : List Effect → Nat
  | [] => 0
  | .hfCall :: l => countHf l + 1
  | _ :: l => countHf l

/-- Number of `send` effects in a log. -/
def countSend : List Effect → Nat
  | [] => 0
  | .send _ :: l => countSend l + 1
  | _ :: l => countSend l

/-! ### Theorems -/

/-- C1: a GET to `/webhook` yields the challenge with status 200 only if
the supplied verify token equals the configured value; whenever the token
does not match, the handler answers `'Forbidden'` with status 403 (in
particular the challenge is not echoed). -/
theorem verify_webhook_token_gate (vt : String) (mode token challenge : Option String) :
    ((verify_webhook vt mode token challenge).2 = 200 → token = some vt) ∧
    (token ≠ some vt →
      verify_webhook vt mode token challenge = (some "Forbidden", 403)) := by
  constructor
  · intro h
    by_cases hb : (mode == some "subscribe" && token == some vt) = true
    · rcases Bool.and_eq_true .. ▸ hb with ⟨-, ht⟩
      exact eq_of_beq ht
    · rw [verify_webhook, if_neg hb] at h
      exact absurd h (by decide)
  · intro hne
    have hb : (mode == some "subscribe" && token == some vt) = false := by
      cases hmode : (mode == some "subscribe") <;>
        cases htok : (token == some vt) <;> simp_all
    rw [verify_webhook, hb]
    simp

/-- Witness for `verify_webhook_token_gate` at a concrete input: with the
default configured token and a mismatched supplied token the handler
answers 403. -/
theorem verify_webhook_token_gate_witness :
    verify_webhook "whatsapp_verify_123" (some "subscribe") (some "wrong")
      (some "chal") = (some "Forbidden", 403) :=
  (verify_webhook_token_gate "whatsapp_verify_123" (some "subscribe")
      (some "wrong") (some "chal")).2 (by decide)

/-- C2 counterexample: the claim says a matching token alone forces the
challenge to be echoed with 200 "regardless of the other query
parameters", but with `hub.mode` absent (not `'subscribe'`) the handler
answers `'Forbidden'`/403 even though the token matches. -/
theorem verify_webhook_mode_counterexample :
    verify_webhook "whatsapp_verify_123" none (some "whatsapp_verify_123")
        (some "challenge-1") = (some "Forbidden", 403) ∧
    verify_webhook "whatsapp_verify_123" none (some "whatsapp_verify_123")
        (some "challenge-1") ≠ (some "challenge-1", 200) := by
  constructor <;> decide

/-- C2 (amended): for every GET to `/webhook` whose token matches the
configured value *and* whose `hub.mode` parameter equals `'subscribe'`,
the handler echoes the challenge back with status 200, regardless of the
challenge value. -/
theorem verify_webhook_subscribe_echoes (vt : String) (challenge : Option String) :
    verify_webhook vt (some "subscribe") (some vt) challenge = (challenge, 200) := by
  rw [verify_webhook]
  simp

/-! ### Helper lemmas -/

theorem length_pos_ne_empty (s : String) (h : 0 < s.length) : s ≠ "" := by
  intro he
  rw [he] at h
  exact absurd h (by decide)

theorem strTake_length (s : String) (n : Nat) :
    (strTake s n).length = min n s.length := by
  show (s.data.take n).length = min n s.data.length
  exact List.length_take n s.data

theorem strTake_ne_empty (s : String) (n : Nat) (hn : 0 < n) (hs : 0 < s.length) :
    strTake s n ≠ "" := by
  apply length_pos_ne_empty
  rw [strTake_length]
  omega

theorem startsWithL_namePat_false (c : Char) (cs : List Char)
    (h : (c == '\x7b') = false) : startsWithL namePat.data (c :: cs) = false := by
  have hd : namePat.data = '\x7b' :: "name\x7d".data := rfl
  rw [hd, startsWithL]
  have : ('\x7b' == c) = false := by
    cases hb : ('\x7b' == c)
    · rfl
    · rw [eq_of_beq hb] at h
      simp at h
  rw [this, Bool.false_and]

theorem startsWithL_bizPat_false (c : Char) (cs : List Char)
    (h : (c == '\x7b') = false) : startsWithL bizPat.data (c :: cs) = false := by
  have hd : bizPat.data = '\x7b' :: "business\x7d".data := rfl
  rw [hd, startsWithL]
  have : ('\x7b' == c) = false := by
    cases hb : ('\x7b' == c)
    · rfl
    · rw [eq_of_beq hb] at h
      simp at h
  rw [this, Bool.false_and]

theorem formatNB_cons_ne (n b : List Char) (c : Char) (cs : List Char)
    (h : (c == '\x7b') = false) :
    formatNB n b (c :: cs) = c :: formatNB n b cs := by
  rw [formatNB, startsWithL_namePat_false c cs h, startsWithL_bizPat_false c cs h]
  simp

theorem pyFormat_ne_empty (t n b : String)
    (h : (t.data.headD '\x7b' == '\x7b') = false) : pyFormat t n b ≠ "" := by
  cases hd : t.data with
  | nil =>
    rw [hd] at h
    simp at h
  | cons c cs =>
    rw [hd] at h
    simp only [List.headD_cons] at h
    intro hcontra
    have hdata : formatNB n.data b.data t.data = [] := congrArg String.data hcontra
    rw [hd, formatNB_cons_ne _ _ _ _ h] at hdata
    simp at hdata

theorem helloGreeting_ne_empty (n b : String) : helloGreeting n b ≠ "" := by
  apply length_pos_ne_empty
  have h : 0 < "Hello ".length := by decide
  simp only [helloGreeting, String.length_append]
  omega

theorem hiGreeting_ne_empty (n : String) : hiGreeting n ≠ "" := by
  apply length_pos_ne_empty
  have h : 0 < "Hi ".length := by decide
  simp only [hiGreeting, String.length_append]
  omega

/-! ### C4 and C5: behaviour of `get_ai_response` -/

/-- C4: whenever the lowercased message contains one of the seven
predefined keywords, `get_ai_response` answers with the (first matching)
canned template formatted with the customer and business names, and the
hosted text-generation call is not performed (the model flag is
`false`); the table is consulted before any model call. -/
theorem get_ai_response_predefined (cfg : Config) (hf : HFOutcome)
    (message name : String)
    (h : ∃ kw ∈ keywords, hasSub kw (pyLower message) = true) :
    ∃ t, get_predefined_response cfg.supportEmail (pyLower message) = some t ∧
      get_ai_response cfg hf message name = (pyFormat t name cfg.business, false) := by
  obtain ⟨kw, hkw, hsub⟩ := h
  have hmap : kw ∈ (responses cfg.supportEmail).map Prod.fst := by
    rw [show (responses cfg.supportEmail).map Prod.fst = keywords from rfl]
    exact hkw
  obtain ⟨p, hp, hfst⟩ := List.mem_map.mp hmap
  have hsome : ((responses cfg.supportEmail).find? fun q =>
      hasSub q.1 (pyLower message)).isSome := by
    rw [List.find?_isSome]
    exact ⟨p, hp, by rw [hfst]; exact hsub⟩
  obtain ⟨pr, hfind⟩ := Option.isSome_iff_exists.mp hsome
  have h1 : get_predefined_response cfg.supportEmail (pyLower message) = some pr.2 := by
    rw [get_predefined_response, hfind]
    rfl
  exact ⟨pr.2, h1, by simp [get_ai_response, h1]⟩

/-- Witness for `get_ai_response_predefined` at a concrete input. -/
theorem get_ai_response_predefined_witness :
    ∃ t, get_predefined_response "support@yourbusiness.com" (pyLower "Hello there") = some t ∧
      get_ai_response ⟨"Your Business", "support@yourbusiness.com"⟩
          HFOutcome.raised "Hello there" "Ann" = (pyFormat t "Ann" "Your Business", false) :=
  get_ai_response_predefined ⟨"Your Business", "support@yourbusiness.com"⟩
    HFOutcome.raised "Hello there" "Ann" (by decide)

/-- C5: `get_ai_response` always returns a non-empty reply, and whenever
no predefined keyword matches and the hosted call fails in any way
(exception, non-200 status, or unusable output) the reply is one of the
two static greetings, each of which contains the customer's name. -/
theorem get_ai_response_fallback (cfg : Config) (hf : HFOutcome)
    (message name : String) :
    (get_ai_response cfg hf message name).1 ≠ "" ∧
    (get_predefined_response cfg.supportEmail (pyLower message) = none →
      hfFailed hf (promptFor name message) →
      ((get_ai_response cfg hf message name).1 = helloGreeting name cfg.business ∨
        (get_ai_response cfg hf message name).1 = hiGreeting name) ∧
      ∃ pre post, (get_ai_response cfg hf message name).1 = pre ++ name ++ post) := by
  cases hpre : get_predefined_response cfg.supportEmail (pyLower message) with
  | some t =>
    refine ⟨?_, ?_⟩
    · have h1 : (get_ai_response cfg hf message name).1 = pyFormat t name cfg.business := by
        simp [get_ai_response, hpre]
      rw [h1]
      have hmapped : ((responses cfg.supportEmail).find? fun q =>
          hasSub q.1 (pyLower message)).map Prod.snd = some t := hpre
      obtain ⟨pr, hfind, hsnd⟩ := Option.map_eq_some'.mp hmapped
      have hmem := List.mem_of_find?_eq_some hfind
      rw [← hsnd]
      simp only [responses, List.mem_cons, List.not_mem_nil, or_false] at hmem
      rcases hmem with h | h | h | h | h | h | h <;> rw [h] <;>
        exact pyFormat_ne_empty _ _ _ rfl
    · intro hnone
      exact absurd hnone (by simp)
  | none =>
    cases hf with
    | raised =>
      have h1 : (get_ai_response cfg .raised message name).1 = hiGreeting name := by
        simp [get_ai_response, hpre]
      refine ⟨h1 ▸ hiGreeting_ne_empty name, fun _ _ => ⟨Or.inr h1, ?_⟩⟩
      exact ⟨"Hi ", "! Thanks for your message. Our team will get back to you soon!",
        by rw [h1]; rfl⟩
    | ok s r =>
      by_cases hs : (s == 200) = true
      · cases r with
        | notListOrEmpty =>
          have h1 : (get_ai_response cfg (.ok s .notListOrEmpty) message name).1 =
              helloGreeting name cfg.business := by
            simp [get_ai_response, hpre, hs]
          refine ⟨h1 ▸ helloGreeting_ne_empty name cfg.business, fun _ _ => ⟨Or.inl h1, ?_⟩⟩
          exact ⟨"Hello ",
            "! Thank you for contacting " ++ cfg.business ++ ". How can I help you today?",
            by rw [h1]; simp [helloGreeting, String.append_assoc]⟩
        | badFirst =>
          have h1 : (get_ai_response cfg (.ok s .badFirst) message name).1 =
              hiGreeting name := by
            simp [get_ai_response, hpre, hs]
          refine ⟨h1 ▸ hiGreeting_ne_empty name, fun _ _ => ⟨Or.inr h1, ?_⟩⟩
          exact ⟨"Hi ", "! Thanks for your message. Our team will get back to you soon!",
            by rw [h1]; rfl⟩
        | genText g =>
          by_cases hcond :
            pyStrip (pyReplace g (promptFor name message) "") ≠ "" ∧
              10 < (pyStrip (pyReplace g (promptFor name message) "")).length
          · have h1 : (get_ai_response cfg (.ok s (.genText g)) message name).1 =
                strTake (pyStrip (pyReplace g (promptFor name message) "")) 400 := by
              simp only [get_ai_response, hpre, hs, if_true]
              rw [if_pos hcond]
            refine ⟨?_, ?_⟩
            · rw [h1]
              exact strTake_ne_empty _ _ (by omega) (by omega)
            · intro _ hfail
              rcases hfail with hraised | ⟨s', r', heq, hdisj⟩
              · exact absurd hraised (by simp)
              · obtain ⟨hs', hr'⟩ : s = s' ∧ HFJson.genText g = r' := by
                  injection heq with h1 h2
                  exact ⟨h1, h2⟩
                rcases hdisj with hne | hext
                · exact absurd (eq_of_beq hs) (hs' ▸ hne)
                · rw [← hr', hfReplyExtract] at hext
                  rw [if_pos hcond] at hext
                  exact absurd hext (by simp)
          · have h1 : (get_ai_response cfg (.ok s (.genText g)) message name).1 =
                helloGreeting name cfg.business := by
              simp only [get_ai_response, hpre, hs, if_true]
              rw [if_neg hcond]
            refine ⟨h1 ▸ helloGreeting_ne_empty name cfg.business, fun _ _ => ⟨Or.inl h1, ?_⟩⟩
            exact ⟨"Hello ",
              "! Thank you for contacting " ++ cfg.business ++ ". How can I help you today?",
              by rw [h1]; simp [helloGreeting, String.append_assoc]⟩
      · have h1 : (get_ai_response cfg (.ok s r) message name).1 =
            helloGreeting name cfg.business := by
          simp [get_ai_response, hpre, Bool.not_eq_true .. ▸ hs]
        refine ⟨h1 ▸ helloGreeting_ne_empty name cfg.business, fun _ _ => ⟨Or.inl h1, ?_⟩⟩
        exact ⟨"Hello ",
          "! Thank you for contacting " ++ cfg.business ++ ". How can I help you today?",
          by rw [h1]; simp [helloGreeting, String.append_assoc]⟩

/-- Witness for `get_ai_response_fallback` at a concrete input: no
keyword in `"zzz"`, the POST raised, and the reply is a greeting
containing the customer's name. -/
theorem get_ai_response_fallback_witness :
    ((get_ai_response ⟨"Your Business", "support@yourbusiness.com"⟩
        HFOutcome.raised "zzz" "Bob").1 =
          helloGreeting "Bob" "Your Business" ∨
      (get_ai_response ⟨"Your Business", "support@yourbusiness.com"⟩
        HFOutcome.raised "zzz" "Bob").1 = hiGreeting "Bob") ∧
    ∃ pre post, (get_ai_response ⟨"Your Business", "support@yourbusiness.com"⟩
        HFOutcome.raised "zzz" "Bob").1 = pre ++ "Bob" ++ post :=
  (get_ai_response_fallback ⟨"Your Business", "support@yourbusiness.com"⟩
      HFOutcome.raised "zzz" "Bob").2 (by decide) (Or.inl rfl)

/-! ### C7: behaviour of `send_whatsapp_message` -/

/-- C7: `send_whatsapp_message` issues exactly one POST of the reply to
the platform's send-message endpoint, returns `true` iff that POST got
HTTP status 200, and returns `false` when the call raised. -/
theorem send_whatsapp_message_spec (outcome : PostOutcome) (pid : String)
    (toN : Option String) (msg : String) :
    ((send_whatsapp_message outcome pid toN msg).1 = true ↔ outcome = .ok 200) ∧
    (outcome = .raised → (send_whatsapp_message outcome pid toN msg).1 = false) ∧
    (send_whatsapp_message outcome pid toN msg).2 = [⟨sendUrl pid, toN, msg⟩] ∧
    (send_whatsapp_message outcome pid toN msg).2.length ≤ 1 := by
  refine ⟨?_, ?_, rfl, by simp [send_whatsapp_message]⟩
  · cases outcome with
    | raised => simp [send_whatsapp_message]
    | ok s => simp [send_whatsapp_message]
  · intro h
    rw [h]
    rfl

/-- Witness for `send_whatsapp_message_spec` at a concrete input. -/
theorem send_whatsapp_message_spec_witness :
    (send_whatsapp_message PostOutcome.raised "12345" (some "15550001111")
      "hello").1 = false :=
  (send_whatsapp_message_spec PostOutcome.raised "12345" (some "15550001111")
    "hello").2.1 rfl

/-! ### `GoogleSheetsManager.store_customer_data` (app.py lines 74-110)

The worksheet is a grid of cell strings, row-major (`Sheet`); empty cells
read as `""`.  `sheet.findall(phone)` returns the cells whose value equals
`phone` in row-major order, so `phone_cells[0].row` is the first row
containing such a cell (`List.findIdx?` below).  `cell(row, 7)` reads
column G; `update('A{r}:G{r}', ...)` rewrites columns A-G of that row and
leaves any further columns unchanged; `append_row` appends at the bottom.
`int(...)` raising (a non-numeric interaction count) is caught by the bare
`except:` of lines 101-106, which appends a fresh row instead.  The date
and time strings (`datetime.now()`, lines 79-80) are parameters. -/

theorem findIdx?_eq_some_of_least {α : Type} (p : α → Bool) (l : List α)
    (i : Nat) (x : α) (hx : l[i]? = some x) (hpx : p x = true)
    (hmin : ∀ j y, j < i → l[j]? = some y → p y = false) :
    l.findIdx? p = some i := by
  induction l generalizing i with
  | nil => simp at hx
  | cons a l ih =>
    cases i with
    | zero =>
      simp only [List.getElem?_cons_zero, Option.some_inj] at hx
      subst hx
      simp [List.findIdx?, hpx]
    | succ i' =>
      have hpa : p a = false := hmin 0 a (Nat.succ_pos i') (by simp)
      rw [List.getElem?_cons_succ] at hx
      have hrec : l.findIdx? p = some i' := by
        apply ih i' hx
        intro j y hj hy
        exact hmin (j + 1) y (Nat.succ_lt_succ hj) (by simpa using hy)
      simp [List.findIdx?, hpa, hrec]

theorem findIdx?_eq_none_of_all {α : Type} (p : α → Bool) (l : List α)
    (h : ∀ x ∈ l, p x = false) : l.findIdx? p = none := by
  induction l with
  | nil => simp [List.findIdx?]
  | cons a l ih =>
    have hpa : p a = false := h a (List.mem_cons_self a l)
    simp [List.findIdx?, hpa, ih fun x hx => h x (List.mem_cons_of_mem a hx)]

/-- C3 counterexample: the claim says a row containing the phone number is
always updated in place with its interaction count incremented, and a new
row is appended only when no row matches.  But when the existing `Total
Interactions` cell is not numeric (here `"x"`), `int(...)` raises, the bare
`except:` appends a fresh row with count `'1'`, and the matching row is
left unchanged. -/
theorem store_customer_data_counterexample :
    store_customer_data
        (some [["Alice", "555", "a@x.co", "hi", "2024-01-01", "10:00:00", "x"]])
        "Alice" "555" "a@x.co" "q2" "2024-01-02" "11:00:00" =
      (true, some
        [["Alice", "555", "a@x.co", "hi", "2024-01-01", "10:00:00", "x"],
         ["Alice", "555", "a@x.co", "q2", "2024-01-02", "11:00:00", "1"]]) := by
  decide

/-- C3 (amended): with no sheet configured the call returns `False` and
changes nothing.  Otherwise, with `i` the first row containing a cell
equal to the phone number: if that row's `Total Interactions` cell (read
as `'0'` when empty) parses as an integer `n`, columns A-G of row `i` are
rewritten with the new data and count `n+1` and every other row is
unchanged; if it does not parse, a fresh row with count `'1'` is appended
instead.  If no row contains the phone number, a fresh row with count
`'1'` is appended. -/
theorem store_customer_data_spec (name phone email question date time : String) :
    store_customer_data none name phone email question date time = (false, none) ∧
    (∀ s : Sheet, (∀ r ∈ s, rowMatches phone r = false) →
      store_customer_data (some s) name phone email question date time =
        (true, some (s ++ [storeRow name phone email question date time "1"]))) ∧
    (∀ s : Sheet, ∀ i : Nat, ∀ row : List String, ∀ n : Int,
      s[i]? = some row → rowMatches phone row = true →
      (∀ j r, j < i → s[j]? = some r → rowMatches phone r = false) →
      pyInt (cellOrZero row) = some n →
      store_customer_data (some s) name phone email question date time =
        (true, some (s.set i
          (storeRow name phone email question date time (toString (n + 1)) ++ row.drop 7))) ∧
      ∀ j, j ≠ i →
        (s.set i (storeRow name phone email question date time (toString (n + 1)) ++
          row.drop 7))[j]? = s[j]?) ∧
    (∀ s : Sheet, ∀ i : Nat, ∀ row : List String,
      s[i]? = some row → rowMatches phone row = true →
      (∀ j r, j < i → s[j]? = some r → rowMatches phone r = false) →
      pyInt (cellOrZero row) = none →
      store_customer_data (some s) name phone email question date time =
        (true, some (s ++ [storeRow name phone email question date time "1"]))) := by
  refine ⟨rfl, ?_, ?_, ?_⟩
  · intro s hall
    simp [store_customer_data, findIdx?_eq_none_of_all (rowMatches phone) s hall]
  · intro s i row n hx hpx hmin hint
    have hfind : s.findIdx? (rowMatches phone) = some i :=
      findIdx?_eq_some_of_least _ s i row hx hpx hmin
    refine ⟨?_, ?_⟩
    · simp [store_customer_data, hfind, hx, hint]
    · intro j hj
      exact List.getElem?_set_ne (fun h => hj h.symm)
  · intro s i row hx hpx hmin hint
    have hfind : s.findIdx? (rowMatches phone) = some i :=
      findIdx?_eq_some_of_least _ s i row hx hpx hmin
    simp [store_customer_data, hfind, hx, hint]

/-- Witness for `store_customer_data_spec` at a concrete input: a sheet
whose single row holds the phone with a numeric count `"3"` is updated in
place to count `"4"`. -/
theorem store_customer_data_spec_witness :
    store_customer_data
        (some [["Alice", "555", "a@x.co", "hi", "2024-01-01", "10:00:00", "3"]])
        "Alicia" "555" "b@x.co" "q2" "2024-01-02" "11:00:00" =
      (true, some [["Alicia", "555", "b@x.co", "q2", "2024-01-02", "11:00:00", "4"]]) :=
  ((store_customer_data_spec "Alicia" "555" "b@x.co" "q2" "2024-01-02"
      "11:00:00").2.2.1
    [["Alice", "555", "a@x.co", "hi", "2024-01-01", "10:00:00", "3"]] 0
    ["Alice", "555", "a@x.co", "hi", "2024-01-01", "10:00:00", "3"] 3
    rfl (by decide) (fun j r hj _ => absurd hj (Nat.not_lt_zero j)) (by decide)).1

/-! ### `extract_email` (app.py lines 173-176)

The source applies `re.search` with the pattern
`\b[A-Za-z0-9._%+-]+@[A-Za-z0-9.-]+\.[A-Z|a-z]{2,}\b` (note the literal
`'|'` inside the third character class).  The Python regex engine scans
positions left to right; at each position the local-part run is forced
(`'@'` is not a local character), while the domain run and the TLD run
backtrack greedily: the longest domain split whose `'.'` is followed by a
viable TLD wins, and the longest TLD (at least 2 characters) that closes
on a word boundary wins.  `matchAt`/`emailSearch` below implement exactly
that backtracking discipline (ASCII scope for `\w`). -/

/-- C8: every exception raised while processing a POST is caught and
answered with a JSON error body and status 500, with no steps performed
after the raise point; and no step is ever attempted more than once (the
effect log of any run contains at most one spreadsheet write, one hosted
call and one send).  The raise points of the embedding are: the JSON body
failing to decode, a JSON `null` body, and a missing
`metadata`/`phone_number_id` key. -/
theorem handle_message_exception_500 (cfg : Config) (sheet : Option Sheet)
    (date time : String) (hf : HFOutcome) (sendOut : PostOutcome) :
    (∀ e, handle_message cfg sheet date time (.error e) hf sendOut =
      (some (.errorJson e, 500), [])) ∧
    (handle_message cfg sheet date time (.ok none) hf sendOut =
      (some (.errorJson noneTypeGetMsg, 500), [])) ∧
    (∀ p entry0 er change0 cr v msg0 ms,
      p.object = some "whatsapp_business_account" →
      p.entry = some (entry0 :: er) →
      entry0.changes = some (change0 :: cr) →
      change0.value = some v →
      v.messages = some (msg0 :: ms) →
      v.metadata = none →
      handle_message cfg sheet date time (.ok (some p)) hf sendOut =
        (some (.errorJson keyErrorMetadata, 500), [])) ∧
    (∀ p entry0 er change0 cr v msg0 ms md,
      p.object = some "whatsapp_business_account" →
      p.entry = some (entry0 :: er) →
      entry0.changes = some (change0 :: cr) →
      change0.value = some v →
      v.messages = some (msg0 :: ms) →
      v.metadata = some md →
      md.phone_number_id = none →
      handle_message cfg sheet date time (.ok (some p)) hf sendOut =
        (some (.errorJson keyErrorPhoneNumberId, 500), [])) ∧
    (∀ body, countStore (handle_message cfg sheet date time body hf sendOut).2 ≤ 1 ∧
      countHf (handle_message cfg sheet date time body hf sendOut).2 ≤ 1 ∧
      countSend (handle_message cfg sheet date time body hf sendOut).2 ≤ 1) := by
  refine ⟨fun e => rfl, rfl, ?_, ?_, ?_⟩
  · intro p entry0 er change0 cr v msg0 ms hobj hentry hchanges hvalue hmsgs hmd
    simp [handle_message, hobj, hentry, hchanges, hvalue, hmsgs, hmd]
  · intro p entry0 er change0 cr v msg0 ms md hobj hentry hchanges hvalue hmsgs hmd hpid
    simp [handle_message, hobj, hentry, hchanges, hvalue, hmsgs, hmd, hpid]
  · intro body
    rcases body with e | op
    · simp [countStore, countHf, countSend, handle_message]
    · rcases op with _ | data
      · simp [countStore, countHf, countSend, handle_message]
      · simp only [handle_message]
        repeat' split
        all_goals
          simp [countStore, countHf, countSend, send_whatsapp_message]

/-- Witness for `handle_message_exception_500` at a concrete input: a
payload whose `value` lacks the `metadata` key is answered with the
`KeyError` body and status 500. -/
theorem handle_message_exception_500_witness :
    handle_message ⟨"Your Business", "support@yourbusiness.com"⟩ none
        "2024-01-01" "10:00:00"
        (.ok (some (mkNotification
          [⟨some "15550001111", some ⟨some "hello"⟩, some "text"⟩] none none [] [])))
        HFOutcome.raised PostOutcome.raised =
      (some (.errorJson keyErrorMetadata, 500), []) :=
  (handle_message_exception_500 ⟨"Your Business", "support@yourbusiness.com"⟩
      none "2024-01-01" "10:00:00" HFOutcome.raised PostOutcome.raised).2.2.1
    _ _ [] _ [] _ _ [] rfl rfl rfl rfl rfl rfl

/-- C9: a well-formed text-message notification is acknowledged with
`{'status': 'success'}` and 200 for every sheet state (in particular
`sheet = none`, where `store_customer_data` returns `False`) and for
every outcome of the send POST (in particular a non-200 or raising send):
the reply is generated and handed to `send_whatsapp_message` regardless
of the ledger result, whose boolean is discarded. -/
theorem handle_message_success (cfg : Config) (sheet : Option Sheet)
    (date time : String) (hf : HFOutcome) (sendOut : PostOutcome)
    (msg0 : MessageData) (ms : List MessageData)
    (contacts : Option (List Contact)) (pid : String)
    (er : List Entry) (cr : List Change)
    (htype : msg0.type = some "text") :
    handle_message cfg sheet date time
      (.ok (some (mkNotification (msg0 :: ms) contacts (some ⟨some pid⟩) cr er)))
      hf sendOut =
    (some (.statusJson "success", 200),
      Effect.store (pyRender (customerNameOf (contacts.getD []) msg0.msgFrom))
          (pyRender msg0.msgFrom) (extract_email (pyMsgText msg0)) (pyMsgText msg0) ::
        ((if (get_ai_response cfg hf (pyMsgText msg0)
              (pyRender (customerNameOf (contacts.getD []) msg0.msgFrom))).2 then
            [Effect.hfCall] else []) ++
          [Effect.send ⟨sendUrl pid, msg0.msgFrom,
            (get_ai_response cfg hf (pyMsgText msg0)
              (pyRender (customerNameOf (contacts.getD []) msg0.msgFrom))).1⟩])) := by
  simp [handle_message, mkNotification, htype, send_whatsapp_message]

/-- Witness for `handle_message_success` at a concrete input: the sheet
is absent (`store_customer_data` returns `False`) and the send POST
raises, yet the handler answers success/200 and the send of the generated
reply is attempted. -/
theorem handle_message_success_witness :
    handle_message ⟨"Your Business", "support@yourbusiness.com"⟩ none
        "2024-01-01" "10:00:00"
        (.ok (some (mkNotification
          [⟨some "15550001111", some ⟨some "hello"⟩, some "text"⟩] none
          (some ⟨some "777"⟩) [] [])))
        HFOutcome.raised PostOutcome.raised =
      (some (.statusJson "success", 200),
        [Effect.store "Customer" "15550001111" "Not provided" "hello",
         Effect.send ⟨sendUrl "777", some "15550001111",
           pyFormat "Hello \x7bname\x7d! Welcome to \x7bbusiness\x7d. How can I help you today?"
             "Customer" "Your Business"⟩]) := by
  have h := handle_message_success ⟨"Your Business", "support@yourbusiness.com"⟩
    none "2024-01-01" "10:00:00" HFOutcome.raised PostOutcome.raised
    ⟨some "15550001111", some ⟨some "hello"⟩, some "text"⟩ [] none "777" [] [] rfl
  rw [h]
  rfl

/-- C10: a POST whose JSON body decodes but fails the shape condition of
app.py lines 222-225 (wrong `object`, or missing/empty
`entry`/`changes`/`messages`) makes the handler fall off the end of the
function with no `return` (modelled as `none`), while a well-formed
notification whose message type is not `'text'` is acknowledged with
`{'status': 'ignored'}` and 200. -/
theorem handle_message_malformed_or_ignored (cfg : Config) (sheet : Option Sheet)
    (date time : String) (hf : HFOutcome) (sendOut : PostOutcome) :
    (∀ p, chainOk p = false →
      handle_message cfg sheet date time (.ok (some p)) hf sendOut = (none, [])) ∧
    (∀ (msg0 : MessageData) (ms : List MessageData)
        (contacts : Option (List Contact)) (pid : String)
        (er : List Entry) (cr : List Change), msg0.type ≠ some "text" →
      handle_message cfg sheet date time
        (.ok (some (mkNotification (msg0 :: ms) contacts (some ⟨some pid⟩) cr er)))
        hf sendOut = (some (.statusJson "ignored", 200), [])) := by
  constructor
  · intro p hchain
    obtain ⟨obj, entry⟩ := p
    simp only [chainOk] at hchain
    simp only [handle_message]
    cases hobj : (obj == some "whatsapp_business_account") with
    | false => simp [hobj]
    | true =>
      rw [hobj, Bool.true_and] at hchain
      simp only [hobj, if_true]
      rcases entry with _ | ⟨_ | ⟨e0, er⟩⟩
      · rfl
      · rfl
      · obtain ⟨changes⟩ := e0
        rcases changes with _ | ⟨_ | ⟨c0, cr⟩⟩
        · rfl
        · rfl
        · obtain ⟨value⟩ := c0
          rcases value with _ | v
          · rfl
          · rcases hmsgs : v.messages with _ | ⟨_ | ⟨m0, ms⟩⟩
            · simp [hmsgs]
            · simp [hmsgs]
            · simp [hmsgs] at hchain
  · intro msg0 ms contacts pid er cr hne
    have hb : (msg0.type != some "text") = true := by
      simp [bne, hne]
    simp [handle_message, mkNotification, hb, hne]

/-- Witness for `handle_message_malformed_or_ignored` at concrete inputs:
a body with the wrong `object` value yields no response at all; a
well-formed image-message notification is answered ignored/200. -/
theorem handle_message_malformed_or_ignored_witness :
    handle_message ⟨"Your Business", "support@yourbusiness.com"⟩ none
        "2024-01-01" "10:00:00"
        (.ok (some ⟨some "page", none⟩))
        HFOutcome.raised PostOutcome.raised = (none, []) ∧
    handle_message ⟨"Your Business", "support@yourbusiness.com"⟩ none
        "2024-01-01" "10:00:00"
        (.ok (some (mkNotification
          [⟨some "15550001111", none, some "image"⟩] none
          (some ⟨some "777"⟩) [] [])))
        HFOutcome.raised PostOutcome.raised =
      (some (.statusJson "ignored", 200), []) :=
  ⟨(handle_message_malformed_or_ignored ⟨"Your Business", "support@yourbusiness.com"⟩
      none "2024-01-01" "10:00:00" HFOutcome.raised PostOutcome.raised).1
    ⟨some "page", none⟩ (by decide),
   (handle_message_malformed_or_ignored ⟨"Your Business", "support@yourbusiness.com"⟩
      none "2024-01-01" "10:00:00" HFOutcome.raised PostOutcome.raised).2
    ⟨some "15550001111", none, some "image"⟩
    [] none "777" [] [] (by decide)⟩

/-! ### Lemmas about the email matcher (claim C6) -/

theorem takeWhile_all_append (p : Char → Bool) (l r : List Char)
    (h : ∀ x ∈ l, p x = true) : (l ++ r).takeWhile p = l ++ r.takeWhile p := by
  induction l with
  | nil => simp
  | cons a l ih =>
    have ha : p a = true := h a (List.mem_cons_self a l)
    simp only [List.cons_append, List.takeWhile_cons, ha, if_true]
    rw [ih fun x hx => h x (List.mem_cons_of_mem a hx)]

theorem dropWhile_all_append (p : Char → Bool) (l r : List Char)
    (h : ∀ x ∈ l, p x = true) : (l ++ r).dropWhile p = r.dropWhile p := by
  induction l with
  | nil => simp
  | cons a l ih =>
    have ha : p a = true := h a (List.mem_cons_self a l)
    simp only [List.cons_append, List.dropWhile_cons, ha, if_true]
    exact ih fun x hx => h x (List.mem_cons_of_mem a hx)

theorem findDown_some {P : Nat → Bool} {n k : Nat} (h : findDown P n = some k) :
    P k = true ∧ k ≤ n ∧ ∀ j, k < j → j ≤ n → P j = false := by
  induction n with
  | zero =>
    by_cases hp : P 0 = true
    · rw [findDown, if_pos hp] at h
      obtain rfl : (0 : Nat) = k := Option.some_inj.mp h
      exact ⟨hp, Nat.le_refl 0, fun j hj hj' => absurd (Nat.lt_of_lt_of_le hj hj') (by omega)⟩
    · rw [findDown, if_neg hp] at h
      exact absurd h (by simp)
  | succ n ih =>
    by_cases hp : P (n + 1) = true
    · rw [findDown, if_pos hp] at h
      obtain rfl : n + 1 = k := Option.some_inj.mp h
      exact ⟨hp, Nat.le_refl _, fun j hj hj' => absurd (Nat.lt_of_lt_of_le hj hj') (by omega)⟩
    · rw [findDown, if_neg hp] at h
      obtain ⟨h1, h2, h3⟩ := ih h
      refine ⟨h1, Nat.le_succ_of_le h2, fun j hj hj' => ?_⟩
      rcases Nat.lt_or_ge j (n + 1) with hlt | hge
      · exact h3 j hj (Nat.lt_succ_iff.mp hlt)
      · obtain rfl : j = n + 1 := Nat.le_antisymm hj' hge
        exact Bool.not_eq_true _ ▸ hp

theorem findDown_isSome {P : Nat → Bool} {n k : Nat} (hk : k ≤ n) (hp : P k = true) :
    (findDown P n).isSome := by
  induction n with
  | zero =>
    obtain rfl : k = 0 := Nat.le_zero.mp hk
    rw [findDown, if_pos hp]
    rfl
  | succ n ih =>
    by_cases hp' : P (n + 1) = true
    · rw [findDown, if_pos hp']
      rfl
    · rw [findDown, if_neg hp']
      rcases Nat.lt_or_ge k (n + 1) with hlt | hge
      · exact ih (Nat.lt_succ_iff.mp hlt)
      · obtain rfl : k = n + 1 := Nat.le_antisymm hk hge
        exact absurd hp hp'

theorem matchPre_nil (prev : Option Char) (m : List Char) : ¬ matchPre prev [] m := by
  rintro ⟨⟨l, d, t, hm, -, -⟩, hpre, -⟩
  rw [List.take_nil] at hpre
  rw [← hpre] at hm
  exact absurd hm.symm (by simp)

theorem tldPick_some {rem : List Char} {n : Nat} (h : tldPick rem = some n) :
    2 ≤ n ∧ n ≤ (rem.takeWhile isTldChar).length ∧
      boundary ((rem.takeWhile isTldChar).take n).getLast? ((rem.drop n).head?) = true := by
  obtain ⟨h1, -, -⟩ := findDown_some h
  rw [tldOk] at h1
  simp only [Bool.and_eq_true, decide_eq_true_eq] at h1
  exact ⟨h1.1.1, h1.1.2, h1.2⟩

theorem domSplit_some {rest2 : List Char} {k n : Nat}
    (h : domSplit rest2 = some (k, n)) :
    1 ≤ k ∧ (rest2.takeWhile isDomChar)[k]? = some '.' ∧
      tldPick ((rest2.takeWhile isDomChar).drop (k + 1) ++
        rest2.dropWhile isDomChar) = some n := by
  rw [domSplit] at h
  split at h
  next k' hf =>
    split at h
    next n' ht =>
      obtain ⟨hk, hn⟩ : k' = k ∧ n' = n := by
        have hinj := Option.some_inj.mp h
        exact ⟨congrArg Prod.fst hinj, congrArg Prod.snd hinj⟩
      subst hk
      subst hn
      obtain ⟨hdot, -, -⟩ := findDown_some hf
      rw [dotOk] at hdot
      simp only [Bool.and_eq_true, decide_eq_true_eq, beq_iff_eq] at hdot
      exact ⟨hdot.1.1, hdot.1.2, ht⟩
    next ht => simp at h
  next hf => simp at h

theorem getLast?_email_shape (L Dk Tn : List Char) (h : Tn ≠ []) :
    (L ++ '@' :: (Dk ++ '.' :: Tn)).getLast? = Tn.getLast? := by
  have h1 : L ++ '@' :: (Dk ++ '.' :: Tn) = (L ++ '@' :: Dk ++ ['.']) ++ Tn := by
    simp [List.append_assoc]
  rw [h1]
  exact List.getLast?_append_of_ne_nil _ h

theorem eq_append_take_drop {α : Type} (s x y : List α) (h : s = x ++ y) :
    s.take x.length = x ∧ s.drop x.length = y := by
  subst h
  exact ⟨List.take_left x y, List.drop_left x y⟩

theorem matchAt_sound {prev : Option Char} {s m : List Char}
    (h : matchAt prev s = some m) : matchPre prev s m := by
  rcases s with _ | ⟨c, cs⟩
  · simp [matchAt] at h
  · rw [matchAt] at h
    split at h
    next hc =>
      rw [Bool.and_eq_true] at hc
      obtain ⟨hloc, hbnd⟩ := hc
      split at h
      next rest2 hdrop =>
        split at h
        next k n hdom =>
          obtain rfl := (Option.some_inj.mp h).symm
          obtain ⟨hk1, hkdot, htld⟩ := domSplit_some hdom
          obtain ⟨hn2, hnle, hbnd2⟩ := tldPick_some htld
          obtain ⟨hklt, hkval⟩ := List.getElem?_eq_some.mp hkdot
          -- abbreviations (as plain haves about the same terms)
          have hL : (c :: cs).takeWhile isLocalChar =
              c :: cs.takeWhile isLocalChar := by
            rw [List.takeWhile_cons, if_pos hloc]
          have hDd : rest2.takeWhile isDomChar =
              (rest2.takeWhile isDomChar).take k ++ '.' ::
                (rest2.takeWhile isDomChar).drop (k + 1) := by
            conv_lhs => rw [← List.take_append_drop k (rest2.takeWhile isDomChar)]
            rw [List.drop_eq_getElem_cons hklt, hkval]
          have hrest2 : rest2 = (rest2.takeWhile isDomChar).take k ++ '.' ::
              ((rest2.takeWhile isDomChar).drop (k + 1) ++
                rest2.dropWhile isDomChar) := by
            conv_lhs => rw [← List.takeWhile_append_dropWhile isDomChar rest2]
            conv_lhs => rw [hDd]
            simp [List.append_assoc]
          have hRtake : ((rest2.takeWhile isDomChar).drop (k + 1) ++
              rest2.dropWhile isDomChar).take n =
              (((rest2.takeWhile isDomChar).drop (k + 1) ++
                rest2.dropWhile isDomChar).takeWhile isTldChar).take n := by
            conv_lhs => rw [← List.takeWhile_append_dropWhile isTldChar
              ((rest2.takeWhile isDomChar).drop (k + 1) ++ rest2.dropWhile isDomChar)]
            exact List.take_append_of_le_length hnle
          have hRdecomp : (rest2.takeWhile isDomChar).drop (k + 1) ++
              rest2.dropWhile isDomChar =
              (((rest2.takeWhile isDomChar).drop (k + 1) ++
                rest2.dropWhile isDomChar).takeWhile isTldChar).take n ++
              ((rest2.takeWhile isDomChar).drop (k + 1) ++
                rest2.dropWhile isDomChar).drop n := by
            conv_lhs => rw [← List.take_append_drop n
              ((rest2.takeWhile isDomChar).drop (k + 1) ++ rest2.dropWhile isDomChar)]
            rw [hRtake]
          have hs : c :: cs =
              ((c :: cs).takeWhile isLocalChar ++ '@' ::
                ((rest2.takeWhile isDomChar).take k ++ '.' ::
                  (((rest2.takeWhile isDomChar).drop (k + 1) ++
                    rest2.dropWhile isDomChar).takeWhile isTldChar).take n)) ++
              ((rest2.takeWhile isDomChar).drop (k + 1) ++
                rest2.dropWhile isDomChar).drop n := by
            conv_lhs => rw [← List.takeWhile_append_dropWhile isLocalChar (c :: cs)]
            conv_lhs => rw [hdrop]
            conv_lhs => rw [hrest2]
            conv_lhs => rw [hRdecomp]
            simp [List.append_assoc]
          have hTn_len : ((((rest2.takeWhile isDomChar).drop (k + 1) ++
              rest2.dropWhile isDomChar).takeWhile isTldChar).take n).length = n := by
            rw [List.length_take]
            omega
          have hTn_ne : (((rest2.takeWhile isDomChar).drop (k + 1) ++
              rest2.dropWhile isDomChar).takeWhile isTldChar).take n ≠ [] := by
            intro hh
            rw [hh] at hTn_len
            simp at hTn_len
            omega
          have hDk_len : ((rest2.takeWhile isDomChar).take k).length = k := by
            rw [List.length_take]
            omega
          refine ⟨⟨(c :: cs).takeWhile isLocalChar, (rest2.takeWhile isDomChar).take k,
            (((rest2.takeWhile isDomChar).drop (k + 1) ++
              rest2.dropWhile isDomChar).takeWhile isTldChar).take n,
            rfl, by rw [hL]; simp, fun x hx => List.mem_takeWhile_imp hx,
            ?_, fun x hx => List.mem_takeWhile_imp (List.take_subset k _ hx),
            by omega, fun x hx => List.mem_takeWhile_imp (List.take_subset n _ hx)⟩,
            ?_, ?_, ?_⟩
          · intro hh
            rw [hh] at hDk_len
            simp at hDk_len
            omega
          · exact (eq_append_take_drop _ _ _ hs).1
          · rw [hL]
            simp only [List.cons_append, List.head?_cons]
            exact hbnd
          · have hdropm : (c :: cs).drop ((c :: cs).takeWhile isLocalChar ++ '@' ::
                ((rest2.takeWhile isDomChar).take k ++ '.' ::
                  (((rest2.takeWhile isDomChar).drop (k + 1) ++
                    rest2.dropWhile isDomChar).takeWhile isTldChar).take n)).length =
                ((rest2.takeWhile isDomChar).drop (k + 1) ++
                  rest2.dropWhile isDomChar).drop n :=
              (eq_append_take_drop _ _ _ hs).2
            rw [hdropm, getLast?_email_shape _ _ _ hTn_ne]
            exact hbnd2
        next hdom => simp at h
      next hdrop => simp at h
    next hc => simp at h

theorem matchAt_complete {prev : Option Char} {s m : List Char}
    (hm : matchPre prev s m) : (matchAt prev s).isSome := by
  obtain ⟨⟨l, d, t, hdecomp, hl_ne, hl_all, hd_ne, hd_all, ht_len, ht_all⟩,
    hpre, hbhead, hblast⟩ := hm
  have hsm : s = m ++ s.drop m.length := by
    have h0 := (List.take_append_drop m.length s).symm
    rw [hpre] at h0
    exact h0
  subst hdecomp
  rcases l with _ | ⟨c, l'⟩
  · exact absurd rfl hl_ne
  have ht_ne : t ≠ [] := by
    intro hh
    rw [hh] at ht_len
    exact absurd ht_len (by decide)
  have hlocc : isLocalChar c = true := hl_all c (List.mem_cons_self c l')
  have hbndc : boundary prev (some c) = true := by
    have hh : ((c :: l') ++ '@' :: (d ++ '.' :: t)).head? = some c := by simp
    rw [hh] at hbhead
    exact hbhead
  obtain ⟨rest, hsm⟩ : ∃ r, s = ((c :: l') ++ '@' :: (d ++ '.' :: t)) ++ r := ⟨_, hsm⟩
  have hdropEq : s.drop ((c :: l') ++ '@' :: (d ++ '.' :: t)).length = rest :=
    (eq_append_take_drop s _ rest hsm).2
  have hblast' : boundary t.getLast? rest.head? = true := by
    rw [getLast?_email_shape _ _ _ ht_ne, hdropEq] at hblast
    exact hblast
  -- facts about the domain run of `d ++ '.' :: (t ++ rest)`
  have hdall' : ∀ x ∈ d ++ ['.'], isDomChar x = true := by
    intro x hx
    rcases List.mem_append.mp hx with hx | hx
    · exact hd_all x hx
    · rw [List.mem_singleton.mp hx]
      decide
  have hR : d ++ '.' :: (t ++ rest) = (d ++ ['.']) ++ (t ++ rest) := by simp
  have hdrun : (d ++ '.' :: (t ++ rest)).takeWhile isDomChar =
      (d ++ ['.']) ++ (t ++ rest).takeWhile isDomChar := by
    rw [hR, takeWhile_all_append _ _ _ hdall']
  have hafter : (d ++ '.' :: (t ++ rest)).dropWhile isDomChar =
      (t ++ rest).dropWhile isDomChar := by
    rw [hR, dropWhile_all_append _ _ _ hdall']
  have hget : ((d ++ '.' :: (t ++ rest)).takeWhile isDomChar)[d.length]? = some '.' := by
    rw [hdrun]
    have hh : (d ++ ['.']) ++ (t ++ rest).takeWhile isDomChar =
        d ++ '.' :: (t ++ rest).takeWhile isDomChar := by simp
    rw [hh, List.getElem?_append_right (Nat.le_refl d.length)]
    simp
  have hdropk : ((d ++ '.' :: (t ++ rest)).takeWhile isDomChar).drop (d.length + 1) =
      (t ++ rest).takeWhile isDomChar := by
    rw [hdrun]
    have hlen : (d ++ ['.']).length = d.length + 1 := by simp
    rw [← hlen]
    exact List.drop_left _ _
  have hrem : ((d ++ '.' :: (t ++ rest)).takeWhile isDomChar).drop (d.length + 1) ++
      (d ++ '.' :: (t ++ rest)).dropWhile isDomChar = t ++ rest := by
    rw [hdropk, hafter, List.takeWhile_append_dropWhile]
  have htrun : (t ++ rest).takeWhile isTldChar = t ++ rest.takeWhile isTldChar :=
    takeWhile_all_append _ _ _ ht_all
  have htldok : tldOk ((t ++ rest).takeWhile isTldChar) (t ++ rest) t.length = true := by
    rw [tldOk]
    simp only [Bool.and_eq_true, decide_eq_true_eq]
    refine ⟨⟨ht_len, ?_⟩, ?_⟩
    · rw [htrun, List.length_append]
      omega
    · rw [htrun, List.take_left, List.drop_left]
      exact hblast'
  have htldpick : (tldPick (t ++ rest)).isSome := by
    rw [tldPick]
    exact findDown_isSome (by rw [htrun, List.length_append]; omega) htldok
  have hdot : dotOk ((d ++ '.' :: (t ++ rest)).takeWhile isDomChar)
      ((d ++ '.' :: (t ++ rest)).dropWhile isDomChar) d.length = true := by
    rw [dotOk]
    simp only [Bool.and_eq_true, decide_eq_true_eq, beq_iff_eq]
    refine ⟨⟨?_, hget⟩, ?_⟩
    · have hp : 0 < d.length := List.length_pos.mpr hd_ne
      omega
    · rw [hrem]
      exact htldpick
  have houter : (findDown (dotOk ((d ++ '.' :: (t ++ rest)).takeWhile isDomChar)
      ((d ++ '.' :: (t ++ rest)).dropWhile isDomChar))
      ((d ++ '.' :: (t ++ rest)).takeWhile isDomChar).length).isSome :=
    findDown_isSome (Nat.le_of_lt (List.getElem?_eq_some.mp hget).1) hdot
  have hdomSome : ∃ kn, domSplit (d ++ '.' :: (t ++ rest)) = some kn := by
    obtain ⟨k₁, hk₁⟩ := Option.isSome_iff_exists.mp houter
    obtain ⟨hdot₁, -, -⟩ := findDown_some hk₁
    rw [dotOk] at hdot₁
    simp only [Bool.and_eq_true, decide_eq_true_eq, beq_iff_eq] at hdot₁
    obtain ⟨n₁, hn₁⟩ := Option.isSome_iff_exists.mp hdot₁.2
    refine ⟨(k₁, n₁), ?_⟩
    rw [domSplit, hk₁]
    simp only [hn₁]
  -- run the matcher
  have hs2 : s = c :: (l' ++ '@' :: (d ++ '.' :: (t ++ rest))) := by
    rw [hsm]
    simp [List.append_assoc]
  have hdropw : (c :: (l' ++ '@' :: (d ++ '.' :: (t ++ rest)))).dropWhile isLocalChar =
      '@' :: (d ++ '.' :: (t ++ rest)) := by
    have hh : c :: (l' ++ '@' :: (d ++ '.' :: (t ++ rest))) =
        (c :: l') ++ ('@' :: (d ++ '.' :: (t ++ rest))) := by simp
    rw [hh, dropWhile_all_append _ _ _ hl_all, List.dropWhile_cons, if_neg (by decide)]
  rw [hs2, matchAt]
  simp only [hlocc, hbndc, Bool.and_self, if_true]
  rw [hdropw]
  split
  next rest2 heq =>
    obtain rfl : d ++ '.' :: (t ++ rest) = rest2 := by
      injection heq
    obtain ⟨⟨k₂, n₂⟩, hkn⟩ := hdomSome
    rw [hkn]
    rfl
  next hno =>
    exact absurd rfl (hno (d ++ '.' :: (t ++ rest)))

theorem matchAt_none_not_matchPre {prev : Option Char} {s : List Char}
    (h : matchAt prev s = none) (m : List Char) : ¬ matchPre prev s m := by
  intro hm
  have hsome := matchAt_complete hm
  rw [h] at hsome
  exact absurd hsome (by simp)

theorem prevAt_cons (prev : Option Char) (c : Char) (cs : List Char) (i : Nat) :
    prevAt prev (c :: cs) (i + 1) = prevAt (some c) cs i := by
  cases i with
  | zero => rfl
  | succ j => rfl

theorem emailSearch_none {prev : Option Char} {s : List Char}
    (h : emailSearch prev s = none) :
    ∀ i m, ¬ matchPre (prevAt prev s i) (s.drop i) m := by
  induction s generalizing prev with
  | nil =>
    intro i m
    rw [List.drop_nil]
    exact matchPre_nil _ m
  | cons c cs ih =>
    rw [emailSearch] at h
    rcases hA : matchAt prev (c :: cs) with _ | m₀
    · rw [hA] at h
      simp only [] at h
      intro i m
      cases i with
      | zero => exact matchAt_none_not_matchPre hA m
      | succ j =>
        rw [prevAt_cons, List.drop_succ_cons]
        exact ih h j m
    · rw [hA] at h
      simp at h

theorem emailSearch_some {prev : Option Char} {s m : List Char}
    (h : emailSearch prev s = some m) :
    ∃ i, matchPre (prevAt prev s i) (s.drop i) m ∧
      ∀ j m', j < i → ¬ matchPre (prevAt prev s j) (s.drop j) m' := by
  induction s generalizing prev with
  | nil =>
    rw [emailSearch] at h
    exact absurd h (by simp)
  | cons c cs ih =>
    rw [emailSearch] at h
    rcases hA : matchAt prev (c :: cs) with _ | m₀
    · rw [hA] at h
      simp only [] at h
      obtain ⟨i, h1, h2⟩ := ih h
      refine ⟨i + 1, ?_, ?_⟩
      · rw [prevAt_cons, List.drop_succ_cons]
        exact h1
      · intro j m' hj
        cases j with
        | zero => exact matchAt_none_not_matchPre hA m'
        | succ j' =>
          rw [prevAt_cons, List.drop_succ_cons]
          exact h2 j' m' (by omega)
    · rw [hA] at h
      simp at h
      subst h
      refine ⟨0, matchAt_sound hA, ?_⟩
      intro j m' hj
      exact absurd hj (Nat.not_lt_zero j)

/-- C6 counterexample: the claim describes the pattern's TLD as "at least
two letters", but the source character class `[A-Z|a-z]` also contains
the literal `'|'`.  On `"a@b.a|c"` there is no substring matching the
claim's letters-only pattern (`specHasEmail` is `false`), yet
`extract_email` returns `"a@b.a|c"` rather than `'Not provided'`. -/
theorem extract_email_tld_counterexample :
    specHasEmail "a@b.a|c" = false ∧
    extract_email "a@b.a|c" = "a@b.a|c" ∧
    extract_email "a@b.a|c" ≠ "Not provided" := by
  refine ⟨by decide, by decide, by decide⟩

/-- C6 (amended): `extract_email` returns the first substring of the
text matching the source's email pattern — word-boundary-delimited
local part, `'@'`, domain, `'.'`, and a TLD of at least two characters
drawn from `[A-Z|a-z]` (letters or the literal `'|'`): either no
position of the text matches and the result is exactly `'Not provided'`,
or the result is a matching substring starting at the leftmost matching
position. -/
theorem extract_email_characterization (text : String) :
    (extract_email text = "Not provided" ∧ ∀ i m, ¬ emailMatchAt text i m) ∨
    (∃ i m, emailMatchAt text i m ∧ extract_email text = String.mk m ∧
      ∀ j m', j < i → ¬ emailMatchAt text j m') := by
  cases hs : emailSearch none text.data with
  | none =>
    left
    exact ⟨by simp [extract_email, hs], fun i m => emailSearch_none hs i m⟩
  | some m =>
    right
    obtain ⟨i, h1, h2⟩ := emailSearch_some hs
    exact ⟨i, m, h1, by simp [extract_email, hs], fun j m' hj => h2 j m' hj⟩

end WhatsAppBot

